import Mathlib

/-!
Verification of the pagination / snapshot-fetch / dispatch behaviours of the
Polygon.io example repository (`polygon_instructions.py`, `scripts/fetch_financials.py`).

Shallow embedding conventions:
* JSON objects are embedded as structures whose fields are `Option`-typed when the
  Python code reads them with `.get` (absent key ↦ `none`).
* Python floats that only flow through comparisons and one averaging step are
  embedded as rationals (`ℚ`).
* Network collaborators (HTTP responses, the vendor SDK) are inputs of the embedded
  functions: a run of a loop that issues one request per page takes the list of
  page responses the server would serve, in order.
* Code that reports failure by printing and returning early is embedded as a
  function into an outcome type carrying the failure kind.
-/

namespace Polygon

/-- Calendar date as produced by `datetime.strptime(s, "%Y-%m-%d")` in
`get_expiry_dates`: a year/month/day triple. -/
structure PDate where
  y : Nat
  m : Nat
  d : Nat
deriving DecidableEq, Repr

/-- Decimal digit-string parser on character lists (accumulator form). -/
def digitsToNatAux : List Char → Nat → Option Nat
  | [], acc => some acc
  | c :: cs, acc =>
    if c.toNat < 48 ∨ 57 < c.toNat then none
    else digitsToNatAux cs (acc * 10 + (c.toNat - 48))

/-- Decimal digit-string parser: `none` on the empty string or any non-digit. -/
def digitsToNat : List Char → Option Nat
  | [] => none
  | cs => digitsToNatAux cs 0

/-- Split a character list on the `-` separator. -/
def splitDash : List Char → List (List Char)
  | [] => [[]]
  | c :: cs =>
    if c = '-' then [] :: splitDash cs
    else
      match splitDash cs with
      | [] => [[c]]
      | g :: gs => (c :: g) :: gs

/-- Embedding of `datetime.strptime(s, "%Y-%m-%d")`: split on `-`, require three
numeric components with a plausible month and day; a string that does not parse
makes `strptime` raise, which the embedding reports as `none`. -/
def parseDate (s : String) : Option PDate :=
  match splitDash s.toList with
  | [ys, ms, ds] =>
    match digitsToNat ys, digitsToNat ms, digitsToNat ds with
    | some y, some m, some d =>
      if 1 ≤ m ∧ m ≤ 12 ∧ 1 ≤ d ∧ d ≤ 31 then some ⟨y, m, d⟩ else none
    | _, _, _ => none
  | _ => none

/-- Code-point comparison of characters, as Python compares the characters of
strings. -/
def charLe (a b : Char) : Bool := decide (a.toNat ≤ b.toNat)

/-- Lexicographic `a <= b` on character lists, as Python orders strings: a
prefix precedes its extensions, otherwise the first differing character
decides. -/
def strLeList : List Char → List Char → Bool
  | [], _ => true
  | _ :: _, [] => false
  | a :: as, b :: bs => if a = b then strLeList as bs else charLe a b

/-- Python string order `a <= b`, used by `sorted` on the expiry-date strings. -/
def strLeb (a b : String) : Bool := strLeList a.toList b.toList

/-- Comparison `a <= b` on parsed dates, as Python compares `datetime` values
(lexicographic on year, month, day). -/
def pdateLe (a b : PDate) : Bool :=
  decide (a.y < b.y) ||
    (decide (a.y = b.y) &&
      (decide (a.m < b.m) || (decide (a.m = b.m) && decide (a.d ≤ b.d))))

/-- One element of a page's `results` array, with the single field
`get_expiry_dates` reads: `contract.get('expiration_date')`. -/
structure OptContract where
  expiration_date : Option String
deriving DecidableEq, Repr

/-- One JSON page response of the contracts endpoint, with the fields the
pagination loop reads: `data.get('status')`, `data.get('results', [])`,
`data.get('next_url')`. -/
structure Page where
  status : Option String
  results : List OptContract
  next_url : Option String
deriving DecidableEq, Repr

/-- Source constant `BASE_URL = "https://api.polygon.io"`. -/
def BASE_URL : String := "https://api.polygon.io"

/-- Source constant `SYMBOL = "SPY"`. -/
def SYMBOL : String := "SPY"

/-- Source constant `START_DATE = "2025-01-24"`. -/
def START_DATE : String := "2025-01-24"

/-- Source constant `END_DATE = "2025-12-19"`. -/
def END_DATE : String := "2025-12-19"

/-- Loop-body step for one contract of a page, from `get_expiry_dates`:
`expiry = contract.get('expiration_date')`; a falsy value (`None` or the empty
string) is skipped; otherwise `strptime` parses it (a parse failure raises, which
the outer `try` turns into an aborted run, embedded as `.error ()`); a parsed
date inside the closed `[start_date, end_date]` interval is added to the
`expiry_dates` set (embedded as append-if-absent, which has the set's membership
and, after the final sort, the set's output). -/
def addExpiry (sd ed : PDate) (acc : List String) (c : OptContract) :
    Except Unit (List String) :=
  match c.expiration_date with
  | none => .ok acc
  | some e =>
    if e = "" then .ok acc
    else
      match parseDate e with
      | none => .error ()
      | some dte =>
        if pdateLe sd dte && pdateLe dte ed then
          .ok (if e ∈ acc then acc else acc ++ [e])
        else .ok acc

/-- Fold of `addExpiry` over a page's `results` list, mirroring the
`for contract in data.get('results', [])` loop. -/
def addExpiries (sd ed : PDate) (acc : List String) :
    List OptContract → Except Unit (List String)
  | [] => .ok acc
  | c :: cs =>
    match addExpiry sd ed acc c with
    | .error u => .error u
    | .ok acc2 => addExpiries sd ed acc2 cs

/-- Observable outcome of a run of the `get_expiry_dates` cursor loop against a
finite list of served page responses. `done` is normal completion (the sorted
date list that the function prints, plus the number of requests issued);
`badStatus` is the `status != 'OK'` early return (it carries no record data: the
accumulated set is discarded); `fetchError` is the outer `except Exception`
branch (a date failed to parse); `pending` means the served responses ran out
while `next_url` was still present, i.e. the loop is about to issue yet another
request. -/
inductive FetchOutcome where
  | done (dates : List String) (requests : Nat)
  | badStatus (st : Option String) (requests : Nat)
  | fetchError (requests : Nat)
  | pending (requests : Nat)
deriving DecidableEq, Repr

/-- The `while next_url:` cursor loop of `get_expiry_dates`, one recursive call
per served page response. Per iteration, in source order: issue the request
(consume one served page, incrementing the request count), check
`data.get('status') != 'OK'` (error return on failure), filter/accumulate the
page's expiration dates, then read `data.get('next_url')` — absent means break
and emit `sorted(list(expiry_dates))`. -/
def getExpiryGo (sd ed : PDate) : List Page → List String → Nat → FetchOutcome
  | [], _, n => .pending n
  | p :: rest, acc, n =>
    if p.status ≠ some "OK" then .badStatus p.status (n + 1)
    else
      match addExpiries sd ed acc p.results with
      | .error _ => .fetchError (n + 1)
      | .ok acc2 =>
        match p.next_url with
        | none => .done (List.insertionSort (fun a b => strLeb a b = true) acc2) (n + 1)
        | some _ => getExpiryGo sd ed rest acc2 (n + 1)

/-- `get_expiry_dates`, run against the list of page responses the server serves
in order. The date range is a parameter (the source instantiates it with the
parses of `START_DATE` and `END_DATE`); the sorted printed output is the value
carried by `FetchOutcome.done`. -/
def get_expiry_dates (sd ed : PDate) (pages : List Page) : FetchOutcome :=
  getExpiryGo sd ed pages [] 0

/-- The generic pagination pattern of the instructional comment
(`polygon_instructions.py`, "Pagination Handling"): `all_results.extend(results)`
each page, break when `next_url` is absent. No status check, no filtering, no
deduplication, no sorting. Returns the accumulated concatenation and the request
count, or `none` when the served responses ran out with the cursor still
present. -/
def pagination_handling_loop :
    List Page → List OptContract → Nat → Option (List OptContract × Nat)
  | [], _, _ => none
  | p :: rest, acc, n =>
    let acc2 := acc ++ p.results
    match p.next_url with
    | none => some (acc2, n + 1)
    | some _ => pagination_handling_loop rest acc2 (n + 1)

/-- A well-formed served chain: nonempty, every page but the last carries a
cursor, the last does not. -/
def properChain : List Page → Bool
  | [] => false
  | [p] => p.next_url.isNone
  | p :: q :: rest => p.next_url.isSome && properChain (q :: rest)

/-- All served pages report `status == 'OK'`. -/
def allOK (ps : List Page) : Bool :=
  ps.all fun p => decide (p.status = some "OK")

/-- A contract whose expiration date, when present and nonempty, parses — i.e.
one that does not make `strptime` raise. -/
def cleanContract (c : OptContract) : Bool :=
  match c.expiration_date with
  | none => true
  | some e => decide (e = "") || (parseDate e).isSome

/-- Every contract of every served page is clean. -/
def cleanPages (ps : List Page) : Bool :=
  ps.all fun p => p.results.all cleanContract

/-- The expiration-date string a contract contributes, if any: present, nonempty,
parses, and the parse lies in the closed range. -/
def keptExpiry (sd ed : PDate) (c : OptContract) : Option String :=
  match c.expiration_date with
  | none => none
  | some e =>
    if e = "" then none
    else
      match parseDate e with
      | none => none
      | some dte => if pdateLe sd dte && pdateLe dte ed then some e else none

/-- In-range expiration dates of the whole chain, in page order and within-page
order, duplicates retained. -/
def chainDates (sd ed : PDate) (ps : List Page) : List String :=
  (List.flatten (ps.map Page.results)).filterMap (keptExpiry sd ed)

/-- Append-if-absent, the list embedding of `set.add`. -/
def addIfAbsent (acc : List String) (e : String) : List String :=
  if e ∈ acc then acc else acc ++ [e]

/-- Deduplicating fold of `addIfAbsent` over a list of date strings. -/
def dedupFold (acc : List String) (l : List String) : List String :=
  l.foldl addIfAbsent acc

/-! ### Async snapshot fetch (`AsyncPolygonClient`) -/

/-- What one `session.get` inside `AsyncPolygonClient._make_request` produces:
either the raised transport/JSON exception (caught by the method's `try`), or a
decoded JSON object with the two fields the method reads, `data.get('status')`
and `data.get('results')`; the payload behind `results` is kept opaque as a
string. -/
structure SnapResponse where
  exn : Bool
  status : Option String
  results : Option String
deriving DecidableEq, Repr

/-- `AsyncPolygonClient._make_request`: an exception is caught (printed) and
yields `None`; a response whose `status` is `'OK'` yields `data.get('results')`
(which may itself be `None`); any other status yields `None`. -/
def make_request (r : SnapResponse) : Option String :=
  if r.exn then none
  else if r.status = some "OK" then r.results
  else none

/-- `AsyncPolygonClient.get_multiple_snapshots`, run against the per-item
responses in input order (`asyncio.gather` preserves it): every item goes
through `_make_request`, and `[r for r in results if r is not None]` drops the
failed ones. -/
def get_multiple_snapshots (resps : List SnapResponse) : List String :=
  (resps.map make_request).filterMap id

/-- Number of items of a batch whose request fails (transport error, non-OK
status, or an OK response with no `results`), i.e. comes back `None`. -/
def failedCount (resps : List SnapResponse) : Nat :=
  (resps.filter fun r => (make_request r).isNone).length

/-- One element of the `contracts` list handed to `get_multiple_snapshots`, with
the two fields it reads. -/
structure SnapContract where
  underlying_ticker : Option String
  ticker : Option String
deriving DecidableEq, Repr

/-- Python f-string rendering of a value that may be `None`. -/
def pyStr (o : Option String) : String :=
  match o with
  | none => "None"
  | some s => s

/-- URL built by `AsyncPolygonClient.get_option_snapshot`. -/
def snapshotUrl (base apiKey : String) (c : SnapContract) : String :=
  base ++ "/v3/snapshot/options/" ++ pyStr c.underlying_ticker ++ "/" ++
    pyStr c.ticker ++ "?apiKey=" ++ apiKey

/-- The task list `get_multiple_snapshots` builds — one
`get_option_snapshot` coroutine per contract — and hands to a single
`asyncio.gather(*tasks)` call. -/
def snapshotTasks (base apiKey : String) (cs : List SnapContract) : List String :=
  cs.map (snapshotUrl base apiKey)

/-- Simultaneous in-flight request count of the dispatch: `asyncio.gather`
starts every task, each runs straight to its `session.get` await with no await
before it, so on the event-loop pass that starts them all, every request of the
batch is in flight at once before any response callback can run. The method
takes no `concurrency_limit` parameter and uses no semaphore, so nothing bounds
this below the batch size. -/
def inFlightAtGather (base apiKey : String) (cs : List SnapContract) : Nat :=
  (snapshotTasks base apiKey cs).length

/-! ### Documented option-pricing policy (comment, "Best Practices for Price
Data") -/

/-- `last_quote` object: `bid` and `ask` read with `.get(_, 0)`. -/
structure LastQuote where
  bid : Option ℚ
  ask : Option ℚ
deriving DecidableEq, Repr

/-- `last_trade` object: `price` read with `.get('price', 0)`. -/
structure LastTrade where
  price : Option ℚ
deriving DecidableEq, Repr

/-- Option snapshot as the documented pricing snippet reads it:
`snapshot.get('last_quote', {})` and `snapshot.get('last_trade', {})`. -/
structure Snapshot where
  last_quote : Option LastQuote
  last_trade : Option LastTrade
deriving DecidableEq, Repr

/-- `last_quote.get('bid', 0)` after `snapshot.get('last_quote', {})`. -/
def bidOf (s : Snapshot) : ℚ :=
  ((s.last_quote.getD ⟨none, none⟩).bid).getD 0

/-- `last_quote.get('ask', 0)` after `snapshot.get('last_quote', {})`. -/
def askOf (s : Snapshot) : ℚ :=
  ((s.last_quote.getD ⟨none, none⟩).ask).getD 0

/-- `snapshot.get('last_trade', {}).get('price', 0)`. -/
def lastTradePriceOf (s : Snapshot) : ℚ :=
  ((s.last_trade.getD ⟨none⟩).price).getD 0

/-- The documented pricing policy, embedded verbatim from the snippet: mid-quote
when both sides are strictly positive, else the last trade's price, defaulting
to `0`. -/
def optionPrice (s : Snapshot) : ℚ :=
  let bid := bidOf s
  let ask := askOf s
  if bid > 0 ∧ ask > 0 then (bid + ask) / 2
  else lastTradePriceOf s

/-! ### WebSocket message dispatch (`on_message` / `handle_trade` /
`handle_quote`) -/

/-- One event record of a decoded WebSocket frame, with every field the handlers
read via `.get`: the tag `ev`, plus `sym`, trade price `p`, trade size `s`,
quote bid `bp`, quote ask `ap`. -/
structure WsEvent where
  ev : Option String
  sym : Option String
  p : Option ℚ
  s : Option ℚ
  bp : Option ℚ
  ap : Option ℚ
deriving DecidableEq, Repr

/-- Where a record ends up: the trade handler (reading `sym`, `p`, `s`), the
quote handler (reading `sym`, `bp`, `ap`), or ignored. -/
inductive Routed where
  | trade (sym : Option String) (price : Option ℚ) (size : Option ℚ)
  | quote (sym : Option String) (bid : Option ℚ) (ask : Option ℚ)
  | ignored
deriving DecidableEq, Repr

/-- `handle_trade`: reads `sym`, `p`, `s` from the record. -/
def handle_trade (t : WsEvent) : Routed := .trade t.sym t.p t.s

/-- `handle_quote`: reads `sym`, `bp`, `ap` from the record. -/
def handle_quote (q : WsEvent) : Routed := .quote q.sym q.bp q.ap

/-- The per-record dispatch of `on_message`: `item.get('ev')` equal to `'T'`
routes to `handle_trade`, `'Q'` to `handle_quote`, anything else (including an
absent tag) falls through both branches and is ignored. -/
def classifyEvent (item : WsEvent) : Routed :=
  if item.ev = some "T" then handle_trade item
  else if item.ev = some "Q" then handle_quote item
  else .ignored

/-- A decoded frame: `json.loads` yields either a list of records (the only
shape `on_message` routes) or some other JSON value. -/
inductive WsFrame where
  | arr (items : List WsEvent)
  | nonList
deriving DecidableEq, Repr

/-- `on_message` on a decoded frame: a list frame dispatches each record in
order; any other frame shape does nothing. -/
def on_message (f : WsFrame) : List Routed :=
  match f with
  | .arr items => items.map classifyEvent
  | .nonList => []

/-! ### `get_option_ticker` -/

/-- Python exception kinds `get_option_ticker` can raise, with `str(e)`. -/
inductive PyError where
  | valueError (msg : String)
  | runtimeError (msg : String)
deriving DecidableEq, Repr

/-- One contract returned by `client.list_options_contracts`, with the single
field read: `ticker`. -/
structure ContractRec where
  ticker : String
deriving DecidableEq, Repr

/-- What `list(client.list_options_contracts(...))` does: raises (carrying
`str(e)`) or returns a list of contracts. -/
inductive ListContractsOutcome where
  | raises (msg : String)
  | returns (contracts : List ContractRec)
deriving DecidableEq, Repr

/-- The message of the internal `ValueError` raised when no contract matches
(the f-string interpolates the original `option_type` and the parameters;
`strike`, a float in the source, is embedded by its rendered text since only its
rendering reaches the message). -/
def noContractMsg (optionType underlying expiration strike : String) : String :=
  "No " ++ optionType ++ " contract found for " ++ underlying ++
    " expiring " ++ expiration ++ " at strike " ++ strike

/-- ASCII case-lowering of one character, as `str.lower()` acts on the
characters in play here. -/
def charToLower (c : Char) : Char :=
  if 65 ≤ c.toNat ∧ c.toNat ≤ 90 then Char.ofNat (c.toNat + 32) else c

/-- Embedding of Python `str.lower()` (ASCII range, which covers the option
types compared against). -/
def pyLower (s : String) : String := String.mk (s.toList.map charToLower)

/-- The key-resolution step of `get_option_ticker`: a provided `api_key`
argument is used unchecked; a `None` argument falls back to
`os.getenv('POLYGON_API_KEY')`, and `if not api_key:` rejects a missing or
empty environment value. -/
def resolvedKeyOk (apiKeyArg envKey : Option String) : Bool :=
  match apiKeyArg with
  | some _ => true
  | none =>
    match envKey with
    | none => false
    | some k => decide (k ≠ "")

/-- `get_option_ticker`. In source order: validate
`option_type.lower() in ['call', 'put']` (else `ValueError`); resolve the API
key — a `None` argument falls back to the environment, and a falsy environment
value (`None` or empty) raises `ValueError`, while a provided argument is used
unchecked; then inside `try`: list the matching contracts (the collaborator
outcome `api`), raise `ValueError` on an empty list, else return
`contracts[0].ticker` — and `except Exception` re-wraps anything raised inside,
the internal `ValueError` included, as
`RuntimeError(f"Error fetching option contract: ...")`. -/
def get_option_ticker (underlying expiration strike optionType : String)
    (apiKeyArg : Option String) (envKey : Option String)
    (api : ListContractsOutcome) : Except PyError String :=
  if ¬(pyLower optionType = "call" ∨ pyLower optionType = "put") then
    .error (.valueError "option_type must be either \x27call\x27 or \x27put\x27")
  else
    if resolvedKeyOk apiKeyArg envKey then
      match api with
      | .raises m =>
        .error (.runtimeError ("Error fetching option contract: " ++ m))
      | .returns [] =>
        .error (.runtimeError ("Error fetching option contract: " ++
          noContractMsg optionType underlying expiration strike))
      | .returns (c :: _) => .ok c.ticker
    else
      .error (.valueError
        "No API key provided and POLYGON_API_KEY not found in environment")

/-! ### `scripts/fetch_financials.py` -/

/-- What `urllib.request.urlopen` + `json.load` produce for the one request
`main` issues: an `HTTPError` (status code, reason, optional body), a
`URLError` (transport failure), or a decoded payload (kept opaque as its
serialized text). -/
inductive HttpResult where
  | httpError (code : Nat) (reason : String) (body : Option String)
  | urlError (reason : String)
  | ok (payload : String)
deriving DecidableEq, Repr

/-- Observable outcome of `main`: the returned exit code, how many HTTP
requests were issued, and the file written (name and content), if any. -/
structure RunResult where
  exitCode : Nat
  requests : Nat
  written : Option (String × String)
deriving DecidableEq, Repr

/-- The output file name `main` writes next to the script. -/
def OUTPUT_FILE : String := "msft-financials.json"

/-- `main` of `scripts/fetch_financials.py`, against the environment value of
`POLYGON_API_KEY` (after the optional `.env` load) and the outcome of its single
request. A falsy key (`None` or empty, `if not api_key`) returns `1` before any
request; `HTTPError` returns `2`, `URLError` returns `3`; otherwise the payload
is written to `msft-financials.json` and `0` is returned. -/
def fetch_financials_main (envKey : Option String) (http : HttpResult) :
    RunResult :=
  match envKey with
  | none => ⟨1, 0, none⟩
  | some k =>
    if k = "" then ⟨1, 0, none⟩
    else
      match http with
      | .httpError _ _ _ => ⟨2, 1, none⟩
      | .urlError _ => ⟨3, 1, none⟩
      | .ok payload => ⟨0, 1, some (OUTPUT_FILE, payload)⟩

/-! ### Helper lemmas -/

/-- One-step unfolding of the cursor loop on a served page. -/
lemma getExpiryGo_cons (sd ed : PDate) (p : Page) (rest : List Page)
    (acc : List String) (n : Nat) :
    getExpiryGo sd ed (p :: rest) acc n =
      if p.status ≠ some "OK" then .badStatus p.status (n + 1)
      else
        match addExpiries sd ed acc p.results with
        | .error _ => .fetchError (n + 1)
        | .ok acc2 =>
          match p.next_url with
          | none => .done (List.insertionSort (fun a b => strLeb a b = true) acc2) (n + 1)
          | some _ => getExpiryGo sd ed rest acc2 (n + 1) := rfl

/-- One-step unfolding of the instructional pagination loop. -/
lemma pagination_handling_loop_cons (p : Page) (rest : List Page)
    (acc : List OptContract) (n : Nat) :
    pagination_handling_loop (p :: rest) acc n =
      match p.next_url with
      | none => some (acc ++ p.results, n + 1)
      | some _ => pagination_handling_loop rest (acc ++ p.results) (n + 1) := rfl

/-- On clean contracts the per-page accumulation is the deduplicating fold of
the kept expiration dates. -/
lemma addExpiries_eq (sd ed : PDate) (cs : List OptContract) :
    ∀ acc, (∀ c ∈ cs, cleanContract c = true) →
      addExpiries sd ed acc cs =
        .ok (dedupFold acc (cs.filterMap (keptExpiry sd ed))) := by
  induction cs with
  | nil => intro acc _; simp [addExpiries, dedupFold]
  | cons c cs ih =>
    intro acc h
    have hc : cleanContract c = true := h c (by simp)
    have hcs : ∀ x ∈ cs, cleanContract x = true := fun x hx => h x (by simp [hx])
    unfold cleanContract at hc
    cases hcd : c.expiration_date with
    | none =>
      rw [hcd] at hc
      simpa [addExpiries, addExpiry, hcd, keptExpiry] using ih acc hcs
    | some e =>
      rw [hcd] at hc
      by_cases he : e = ""
      · simpa [addExpiries, addExpiry, hcd, keptExpiry, he] using ih acc hcs
      · have hps : (parseDate e).isSome = true := by
          simpa [he] using hc
        obtain ⟨dte, hdte⟩ := Option.isSome_iff_exists.mp hps
        by_cases hr : (pdateLe sd dte && pdateLe dte ed) = true
        · have := ih (addIfAbsent acc e) hcs
          simpa [addExpiries, addExpiry, hcd, keptExpiry, he, hdte, hr,
            dedupFold, addIfAbsent] using this
        · simpa [addExpiries, addExpiry, hcd, keptExpiry, he, hdte, hr]
            using ih acc hcs

lemma dedupFold_append (acc : List String) (l1 l2 : List String) :
    dedupFold acc (l1 ++ l2) = dedupFold (dedupFold acc l1) l2 := by
  simp [dedupFold, List.foldl_append]

lemma mem_addIfAbsent (e x : String) (acc : List String) :
    e ∈ addIfAbsent acc x ↔ e ∈ acc ∨ e = x := by
  unfold addIfAbsent
  by_cases hx : x ∈ acc
  · simp only [if_pos hx]
    constructor
    · exact fun h => Or.inl h
    · rintro (h | rfl)
      · exact h
      · exact hx
  · simp [if_neg hx]

lemma mem_dedupFold (e : String) (l : List String) :
    ∀ acc, e ∈ dedupFold acc l ↔ e ∈ acc ∨ e ∈ l := by
  induction l with
  | nil => intro acc; simp [dedupFold]
  | cons x l ih =>
    intro acc
    have : dedupFold acc (x :: l) = dedupFold (addIfAbsent acc x) l := by
      simp [dedupFold]
    rw [this, ih (addIfAbsent acc x), mem_addIfAbsent]
    constructor
    · rintro ((h | rfl) | h)
      · exact Or.inl h
      · exact Or.inr (by simp)
      · exact Or.inr (by simp [h])
    · rintro (h | h)
      · exact Or.inl (Or.inl h)
      · rcases List.mem_cons.mp h with rfl | h
        · exact Or.inl (Or.inr rfl)
        · exact Or.inr h

/-- Loop fusion for a well-formed all-OK clean chain: the cursor loop completes,
issues one request per served page, and its output is the sorted deduplication
of the kept dates of the concatenated pages. -/
lemma getExpiryGo_done (sd ed : PDate) (ps : List Page)
    (hok : allOK ps = true) (hcl : cleanPages ps = true)
    (hch : properChain ps = true) :
    ∀ acc n, getExpiryGo sd ed ps acc n =
      .done (List.insertionSort (fun a b => strLeb a b = true) (dedupFold acc (chainDates sd ed ps)))
        (n + ps.length) := by
  induction ps with
  | nil => simp [properChain] at hch
  | cons p rest ih =>
    intro acc n
    have hpok : p.status = some "OK" := by
      have := (List.all_eq_true.mp hok) p (by simp)
      simpa using this
    have hpcl : ∀ c ∈ p.results, cleanContract c = true := by
      have := (List.all_eq_true.mp hcl) p (by simp)
      exact fun c hc => (List.all_eq_true.mp this) c hc
    have hrok : allOK rest = true := by
      simp only [allOK, List.all_cons, Bool.and_eq_true] at hok
      exact hok.2
    have hrcl : cleanPages rest = true := by
      simp only [cleanPages, List.all_cons, Bool.and_eq_true] at hcl
      exact hcl.2
    cases rest with
    | nil =>
      have hnone : p.next_url = none := by
        simpa [properChain, Option.isNone_iff_eq_none] using hch
      rw [getExpiryGo_cons]
      simp [hpok, addExpiries_eq sd ed p.results acc hpcl, hnone, chainDates]
    | cons q rest2 =>
      obtain ⟨hsome, hchr⟩ :
          p.next_url.isSome = true ∧ properChain (q :: rest2) = true := by
        simpa [properChain] using hch
      obtain ⟨u, hu⟩ := Option.isSome_iff_exists.mp hsome
      have hstep := ih hrok hrcl hchr
        (dedupFold acc (p.results.filterMap (keptExpiry sd ed))) (n + 1)
      have hsplit : chainDates sd ed (p :: q :: rest2) =
          p.results.filterMap (keptExpiry sd ed) ++
            chainDates sd ed (q :: rest2) := by
        simp [chainDates]
      rw [hsplit]
      rw [getExpiryGo_cons]
      simp only [hpok, addExpiries_eq sd ed p.results acc hpcl, hu]
      rw [dedupFold_append]
      simp only [if_neg (by simp : ¬(some "OK" ≠ some "OK"))]
      rw [hstep]
      congr 1
      simp [List.length_cons]
      omega

/-- The instructional pagination loop on a well-formed chain: plain
concatenation, one request per page. -/
lemma pagination_loop_done (ps : List Page) (hch : properChain ps = true) :
    ∀ acc n, pagination_handling_loop ps acc n =
      some (acc ++ List.flatten (ps.map Page.results), n + ps.length) := by
  induction ps with
  | nil => simp [properChain] at hch
  | cons p rest ih =>
    intro acc n
    cases rest with
    | nil =>
      have hnone : p.next_url = none := by
        simpa [properChain, Option.isNone_iff_eq_none] using hch
      rw [pagination_handling_loop_cons]
      simp [hnone]
    | cons q rest2 =>
      obtain ⟨hsome, hchr⟩ :
          p.next_url.isSome = true ∧ properChain (q :: rest2) = true := by
        simpa [properChain] using hch
      obtain ⟨u, hu⟩ := Option.isSome_iff_exists.mp hsome
      rw [pagination_handling_loop_cons]
      simp only [hu]
      rw [ih hchr (acc ++ p.results) (n + 1)]
      simp [List.length_cons]
      omega

/-- On a served prefix of a never-ending chain (every page OK, clean, cursor
present) the loop consumes every served page and is still awaiting the next
one. -/
lemma getExpiryGo_pending (sd ed : PDate) (ps : List Page)
    (h : ∀ p ∈ ps, p.status = some "OK" ∧ p.next_url.isSome = true ∧
      ∀ c ∈ p.results, cleanContract c = true) :
    ∀ acc n, getExpiryGo sd ed ps acc n = .pending (n + ps.length) := by
  induction ps with
  | nil => intro acc n; simp [getExpiryGo]
  | cons p rest ih =>
    intro acc n
    obtain ⟨hpok, hsome, hpcl⟩ := h p (by simp)
    obtain ⟨u, hu⟩ := Option.isSome_iff_exists.mp hsome
    have hrest : ∀ q ∈ rest, q.status = some "OK" ∧ q.next_url.isSome = true ∧
        ∀ c ∈ q.results, cleanContract c = true :=
      fun q hq => h q (by simp [hq])
    rw [getExpiryGo_cons]
    simp only [hpok, addExpiries_eq sd ed p.results acc hpcl, hu]
    rw [if_neg (by simp : ¬(some "OK" ≠ some "OK"))]
    rw [ih hrest (dedupFold acc (p.results.filterMap (keptExpiry sd ed))) (n + 1)]
    congr 1
    simp [List.length_cons]
    omega

/-- A non-OK page aborts the fetch exactly there: after the clean OK cursor
prefix, the loop reports the bad page's status having issued one request per
page seen, the bad one included. -/
lemma getExpiryGo_badStatus (sd ed : PDate) (pre : List Page) (bad : Page)
    (rest : List Page)
    (hpre : ∀ p ∈ pre, p.status = some "OK" ∧ p.next_url.isSome = true ∧
      ∀ c ∈ p.results, cleanContract c = true)
    (hbad : bad.status ≠ some "OK") :
    ∀ acc n, getExpiryGo sd ed (pre ++ bad :: rest) acc n =
      .badStatus bad.status (n + pre.length + 1) := by
  induction pre with
  | nil => intro acc n; simp [getExpiryGo, hbad]
  | cons p pre2 ih =>
    intro acc n
    obtain ⟨hpok, hsome, hpcl⟩ := hpre p (by simp)
    obtain ⟨u, hu⟩ := Option.isSome_iff_exists.mp hsome
    have hpre2 : ∀ q ∈ pre2, q.status = some "OK" ∧ q.next_url.isSome = true ∧
        ∀ c ∈ q.results, cleanContract c = true :=
      fun q hq => hpre q (by simp [hq])
    rw [List.cons_append, getExpiryGo_cons]
    simp only [hpok, addExpiries_eq sd ed p.results acc hpcl, hu]
    rw [if_neg (by simp : ¬(some "OK" ≠ some "OK"))]
    rw [ih hpre2 (dedupFold acc (p.results.filterMap (keptExpiry sd ed))) (n + 1)]
    congr 1
    simp [List.length_cons]
    omega

/-- The aggregate is the `filterMap` of the per-item results. -/
lemma get_multiple_snapshots_eq (resps : List SnapResponse) :
    get_multiple_snapshots resps = resps.filterMap make_request := by
  simp [get_multiple_snapshots, List.filterMap_map, Function.comp]

/-- Counting: the snapshot aggregate keeps exactly the successful items. -/
lemma get_multiple_snapshots_length (resps : List SnapResponse) :
    (get_multiple_snapshots resps).length = resps.length - failedCount resps := by
  rw [get_multiple_snapshots_eq]
  induction resps with
  | nil => simp [failedCount]
  | cons r rest ih =>
    have hle : failedCount rest ≤ rest.length := by
      simpa [failedCount] using List.length_filter_le
        (fun r => (make_request r).isNone) rest
    cases hr : make_request r with
    | none =>
      have hfc : failedCount (r :: rest) = failedCount rest + 1 := by
        simp [failedCount, List.filter_cons, hr]
      rw [hfc]
      simp only [List.filterMap_cons, hr, List.length_cons]
      rw [ih]
      omega
    | some v =>
      have hfc : failedCount (r :: rest) = failedCount rest := by
        simp [failedCount, List.filter_cons, hr]
      rw [hfc]
      simp only [List.filterMap_cons, hr, List.length_cons]
      rw [ih]
      omega

/-- A contract contributes a date string only when that string is its own
expiration date, nonempty, and parses to a date inside the closed range. -/
lemma keptExpiry_some (sd ed : PDate) (c : OptContract) (e : String)
    (h : keptExpiry sd ed c = some e) :
    c.expiration_date = some e ∧ e ≠ "" ∧
      ∃ dte, parseDate e = some dte ∧
        (pdateLe sd dte && pdateLe dte ed) = true := by
  cases hcd : c.expiration_date with
  | none => simp only [keptExpiry, hcd] at h; cases h
  | some e2 =>
    simp only [keptExpiry, hcd] at h
    by_cases he : e2 = ""
    · rw [if_pos he] at h; cases h
    · rw [if_neg he] at h
      cases hp : parseDate e2 with
      | none => simp only [hp] at h; cases h
      | some dte =>
        simp only [hp] at h
        by_cases hr : (pdateLe sd dte && pdateLe dte ed) = true
        · rw [if_pos hr] at h
          cases h
          exact ⟨rfl, he, dte, hp, hr⟩
        · rw [if_neg hr] at h; cases h

/-- Key resolution fails exactly when no argument is given and the environment
value is missing or empty. -/
lemma resolvedKeyOk_false (apiKeyArg envKey : Option String) :
    resolvedKeyOk apiKeyArg envKey = false ↔
      apiKeyArg = none ∧ (envKey = none ∨ envKey = some "") := by
  cases apiKeyArg with
  | some k => simp [resolvedKeyOk]
  | none =>
    cases envKey with
    | none => simp [resolvedKeyOk]
    | some k => simp [resolvedKeyOk]

/-! ### Claims -/

/-- Claim C1, counterexample. A single OK page (so `N = 1`, all statuses OK)
reports three records whose in-range expiration dates are, in within-page
order, `2025-03-01, 2025-02-01, 2025-02-01`; `get_expiry_dates` outputs
`["2025-02-01", "2025-03-01"]` — deduplicated (the repeated date appears once)
and sorted (not in page order) — which differs from the claimed concatenation
of the pages' results in page order with no deduplication and no sorting. -/
theorem C1_counterexample :
    get_expiry_dates ⟨2025, 1, 1⟩ ⟨2025, 12, 31⟩
        [⟨some "OK",
          [⟨some "2025-03-01"⟩, ⟨some "2025-02-01"⟩, ⟨some "2025-02-01"⟩],
          none⟩] =
      .done ["2025-02-01", "2025-03-01"] 1 ∧
    chainDates ⟨2025, 1, 1⟩ ⟨2025, 12, 31⟩
        [⟨some "OK",
          [⟨some "2025-03-01"⟩, ⟨some "2025-02-01"⟩, ⟨some "2025-02-01"⟩],
          none⟩] =
      ["2025-03-01", "2025-02-01", "2025-02-01"] ∧
    (["2025-02-01", "2025-03-01"] : List String) ≠
      ["2025-03-01", "2025-02-01", "2025-02-01"] := by
  exact ⟨by decide, by decide, by decide⟩

/-- Claim C1, amended: for every chain of `N` pages all reporting OK status
(every page but the last carrying a cursor, and every expiration date
parseable), the cursor loop of `get_expiry_dates` visits the pages in order,
issues exactly `N` requests, and outputs not the raw concatenation but the
sorted deduplication of the in-range expiration dates of the concatenation of
all pages' results taken in page order and within-page order; the generic
pagination pattern of the instructional comment is the one that returns the
plain concatenation in page order, with no deduplication and no sorting, also
in exactly `N` requests. -/
theorem C1_pagination_shape (sd ed : PDate) (ps : List Page)
    (hok : allOK ps = true) (hcl : cleanPages ps = true)
    (hch : properChain ps = true) :
    get_expiry_dates sd ed ps =
      .done (List.insertionSort (fun a b => strLeb a b = true) (dedupFold [] (chainDates sd ed ps)))
        ps.length ∧
    pagination_handling_loop ps [] 0 =
      some (List.flatten (ps.map Page.results), ps.length) := by
  constructor
  · simpa [get_expiry_dates] using getExpiryGo_done sd ed ps hok hcl hch [] 0
  · simpa using pagination_loop_done ps hch [] 0

/-- Claim C1, witness: the amended theorem applied to a concrete two-page OK
chain. -/
theorem C1_pagination_shape_witness :
    get_expiry_dates ⟨2025, 1, 1⟩ ⟨2025, 12, 31⟩
        [⟨some "OK", [⟨some "2025-03-01"⟩], some "p2"⟩,
         ⟨some "OK", [⟨some "2025-02-01"⟩], none⟩] =
      .done (List.insertionSort (fun a b => strLeb a b = true)
        (dedupFold [] (chainDates ⟨2025, 1, 1⟩ ⟨2025, 12, 31⟩
          [⟨some "OK", [⟨some "2025-03-01"⟩], some "p2"⟩,
           ⟨some "OK", [⟨some "2025-02-01"⟩], none⟩]))) 2 ∧
    pagination_handling_loop
        [⟨some "OK", [⟨some "2025-03-01"⟩], some "p2"⟩,
         ⟨some "OK", [⟨some "2025-02-01"⟩], none⟩] [] 0 =
      some ([⟨some "2025-03-01"⟩, ⟨some "2025-02-01"⟩], 2) := by
  have h := C1_pagination_shape ⟨2025, 1, 1⟩ ⟨2025, 12, 31⟩
    [⟨some "OK", [⟨some "2025-03-01"⟩], some "p2"⟩,
     ⟨some "OK", [⟨some "2025-02-01"⟩], none⟩]
    (by decide) (by decide) (by decide)
  exact ⟨h.1, by simpa using h.2⟩

/-- Claim C2: if some served page reports a non-OK status, the fetch aborts
exactly at the first such page with a bad-status outcome carrying that page's
status — an outcome that delivers no records at all, in particular none of
those accumulated from the earlier OK pages — after one request per page seen
(the bad one included). -/
theorem C2_badStatus_aborts (sd ed : PDate) (pre : List Page) (bad : Page)
    (rest : List Page)
    (hpre : ∀ p ∈ pre, p.status = some "OK" ∧ p.next_url.isSome = true ∧
      ∀ c ∈ p.results, cleanContract c = true)
    (hbad : bad.status ≠ some "OK") :
    get_expiry_dates sd ed (pre ++ bad :: rest) =
      .badStatus bad.status (pre.length + 1) ∧
    ∀ dates r, get_expiry_dates sd ed (pre ++ bad :: rest) ≠ .done dates r := by
  have h := getExpiryGo_badStatus sd ed pre bad rest hpre hbad [] 0
  have h0 : get_expiry_dates sd ed (pre ++ bad :: rest) =
      .badStatus bad.status (pre.length + 1) := by
    simpa [get_expiry_dates] using h
  refine ⟨h0, fun dates r hcontra => ?_⟩
  rw [h0] at hcontra
  cases hcontra

/-- Claim C2, witness: a two-page chain whose second page reports status
`ERROR`; the fetch aborts at page 2 with its status and delivers nothing. -/
theorem C2_badStatus_aborts_witness :
    get_expiry_dates ⟨2025, 1, 1⟩ ⟨2025, 12, 31⟩
        [⟨some "OK", [⟨some "2025-02-01"⟩], some "p2"⟩,
         ⟨some "ERROR", [⟨some "2025-03-01"⟩], none⟩] =
      .badStatus (some "ERROR") 2 ∧
    ∀ dates r, get_expiry_dates ⟨2025, 1, 1⟩ ⟨2025, 12, 31⟩
        [⟨some "OK", [⟨some "2025-02-01"⟩], some "p2"⟩,
         ⟨some "ERROR", [⟨some "2025-03-01"⟩], none⟩] ≠ .done dates r := by
  have h := C2_badStatus_aborts ⟨2025, 1, 1⟩ ⟨2025, 12, 31⟩
    [⟨some "OK", [⟨some "2025-02-01"⟩], some "p2"⟩]
    ⟨some "ERROR", [⟨some "2025-03-01"⟩], none⟩ []
    (by decide) (by decide)
  exact ⟨by simpa using h.1, by simpa using h.2⟩

/-- Claim C3, counterexample. `get_expiry_dates` has no `max_pages` parameter
and no `PaginationLimitExceeded` failure (no such outcome exists in its code):
on a chain whose every page is OK and carries a cursor, after being served 5
pages the loop has issued 5 requests and is still awaiting the next page —
it has not failed with any limit error, contradicting termination after any
claimed `max_pages` bound. -/
theorem C3_counterexample :
    get_expiry_dates ⟨2025, 1, 1⟩ ⟨2025, 12, 31⟩
        (List.replicate 5 ⟨some "OK", [⟨some "2025-02-01"⟩], some "u"⟩) =
      .pending 5 := by
  decide

/-- Claim C3, amended: the cursor loop of `get_expiry_dates` enforces no
maximum page count — on every served prefix of a chain whose cursor is present
on every (OK, clean) page, the loop consumes the whole prefix, issuing exactly
one request per page, and is still running (about to issue the next request);
it never terminates and never reports any pagination-limit failure. -/
theorem C3_no_page_bound (sd ed : PDate) (ps : List Page)
    (h : ∀ p ∈ ps, p.status = some "OK" ∧ p.next_url.isSome = true ∧
      ∀ c ∈ p.results, cleanContract c = true) :
    get_expiry_dates sd ed ps = .pending ps.length := by
  simpa [get_expiry_dates] using getExpiryGo_pending sd ed ps h [] 0

/-- Claim C3, witness: the amended theorem applied to a served three-page
all-cursor prefix. -/
theorem C3_no_page_bound_witness :
    get_expiry_dates ⟨2025, 1, 1⟩ ⟨2025, 12, 31⟩
        (List.replicate 3 ⟨some "OK", [], some "u"⟩) = .pending 3 := by
  have h := C3_no_page_bound ⟨2025, 1, 1⟩ ⟨2025, 12, 31⟩
    (List.replicate 3 ⟨some "OK", [], some "u"⟩) (by decide)
  simpa using h

/-- Claim C4: over `K` snapshot items of which `M < K` fail (a caught transport
exception, a non-OK status, or an OK response with no `results` — every way an
item comes back `None`), `get_multiple_snapshots` returns exactly `K − M`
records, the failed items omitted. No exception propagates: every failure is
absorbed inside `_make_request`, which the totality of the embedding over all
response lists reflects. -/
theorem C4_partial_results (resps : List SnapResponse) (K M : Nat)
    (hK : resps.length = K) (hM : failedCount resps = M) (hMK : M < K) :
    (get_multiple_snapshots resps).length = K - M := by
  subst hK
  subst hM
  exact get_multiple_snapshots_length resps

/-- Claim C4, witness: three items — one OK with a payload, one raising a
transport exception, one with a non-OK status — yield `3 − 2 = 1` record. -/
theorem C4_partial_results_witness :
    (get_multiple_snapshots
      [⟨false, some "OK", some "snapA"⟩, ⟨true, none, none⟩,
       ⟨false, some "ERROR", some "snapC"⟩]).length = 3 - 2 :=
  C4_partial_results
    [⟨false, some "OK", some "snapA"⟩, ⟨true, none, none⟩,
     ⟨false, some "ERROR", some "snapC"⟩] 3 2 rfl (by decide) (by decide)

/-- Claim C5, counterexample. `get_multiple_snapshots` takes no
`concurrency_limit` parameter and uses no semaphore; it hands every task of the
batch to one `asyncio.gather(*tasks)` call, and each task runs straight to its
`session.get` await, so on a three-item batch three requests are in flight
simultaneously — more than a putative bound of 2 in flight, and likewise for
any bound below the batch size. -/
theorem C5_counterexample :
    inFlightAtGather BASE_URL "key"
      [⟨some "SPY", some "O:SPY1"⟩, ⟨some "SPY", some "O:SPY2"⟩,
       ⟨some "SPY", some "O:SPY3"⟩] = 3 ∧ (2 : Nat) < 3 :=
  ⟨rfl, by decide⟩

/-- Claim C5, amended: the snapshot fan-out is unbounded — the number of
requests simultaneously in flight at dispatch equals the batch size, so every
limit smaller than the batch size is exceeded; no `concurrency_limit` exists in
the code. -/
theorem C5_unbounded_fanout (base apiKey : String) (cs : List SnapContract)
    (limit : Nat) (h : limit < cs.length) :
    inFlightAtGather base apiKey cs = cs.length ∧
    limit < inFlightAtGather base apiKey cs := by
  have he : inFlightAtGather base apiKey cs = cs.length := by
    simp [inFlightAtGather, snapshotTasks]
  exact ⟨he, by rw [he]; exact h⟩

/-- Claim C5, witness: a two-item batch exceeds an in-flight bound of 1. -/
theorem C5_unbounded_fanout_witness :
    inFlightAtGather BASE_URL "k"
      [⟨some "SPY", some "A"⟩, ⟨some "SPY", some "B"⟩] = 2 ∧
    1 < inFlightAtGather BASE_URL "k"
      [⟨some "SPY", some "A"⟩, ⟨some "SPY", some "B"⟩] :=
  C5_unbounded_fanout BASE_URL "k"
    [⟨some "SPY", some "A"⟩, ⟨some "SPY", some "B"⟩] 1 (by decide)

/-- Claim C6: whenever a completed fetch carries a date range, every date in
the output parses into the closed interval `[start, end]`, and every
expiration-date string whose parse lies outside the interval is excluded from
the output (silently — the run still completes, nothing is retried). -/
theorem C6_date_range (sd ed : PDate) (ps : List Page) (dates : List String)
    (r : Nat) (hok : allOK ps = true) (hcl : cleanPages ps = true)
    (hch : properChain ps = true)
    (hdone : get_expiry_dates sd ed ps = .done dates r) :
    (∀ e ∈ dates, ∃ dte, parseDate e = some dte ∧
      (pdateLe sd dte && pdateLe dte ed) = true) ∧
    (∀ e dte, parseDate e = some dte →
      (pdateLe sd dte && pdateLe dte ed) = false → e ∉ dates) := by
  have h := getExpiryGo_done sd ed ps hok hcl hch [] 0
  rw [get_expiry_dates, h] at hdone
  cases hdone
  have hmem : ∀ e, e ∈ List.insertionSort (fun a b => strLeb a b = true)
      (dedupFold [] (chainDates sd ed ps)) ↔ e ∈ chainDates sd ed ps := by
    intro e
    rw [(List.perm_insertionSort _ _).mem_iff, mem_dedupFold]
    simp
  have hfst : ∀ e ∈ List.insertionSort (fun a b => strLeb a b = true)
      (dedupFold [] (chainDates sd ed ps)), ∃ dte, parseDate e = some dte ∧
      (pdateLe sd dte && pdateLe dte ed) = true := by
    intro e he
    rw [hmem e] at he
    obtain ⟨c, -, hc⟩ := List.mem_filterMap.mp he
    obtain ⟨-, -, dte, hp, hr⟩ := keptExpiry_some sd ed c e hc
    exact ⟨dte, hp, hr⟩
  refine ⟨hfst, fun e dte hp hrf he => ?_⟩
  obtain ⟨dte2, hp2, hr2⟩ := hfst e he
  rw [hp] at hp2
  cases hp2
  rw [hr2] at hrf
  cases hrf

/-- Claim C6, witness: the spec scenario — two OK pages with dates
`2025-02-01` and `2025-03-01`, range `[2025-01-01, 2025-02-28]`; the fetch
returns exactly the one in-range date, and the claim theorem certifies the
out-of-range date is excluded. -/
theorem C6_date_range_witness :
    get_expiry_dates ⟨2025, 1, 1⟩ ⟨2025, 2, 28⟩
      [⟨some "OK", [⟨some "2025-02-01"⟩], some "p2"⟩,
       ⟨some "OK", [⟨some "2025-03-01"⟩], none⟩] = .done ["2025-02-01"] 2 ∧
    "2025-03-01" ∉ (["2025-02-01"] : List String) := by
  have h := C6_date_range ⟨2025, 1, 1⟩ ⟨2025, 2, 28⟩
    [⟨some "OK", [⟨some "2025-02-01"⟩], some "p2"⟩,
     ⟨some "OK", [⟨some "2025-03-01"⟩], none⟩] ["2025-02-01"] 2
    (by decide) (by decide) (by decide) (by decide)
  exact ⟨by decide, h.2 "2025-03-01" ⟨2025, 3, 1⟩ (by decide) (by decide)⟩

/-- Claim C7: the frame dispatcher routes each record of a decoded list frame
by its `ev` tag — `'T'` to the trade handler, which reads `sym`, price `p` and
size `s`; `'Q'` to the quote handler; any other (or missing) tag is ignored
with no error — and a list frame is dispatched record by record in order, a
non-list frame not at all. The dispatch is a pure function of the record
alone. -/
theorem C7_dispatch (item : WsEvent) (items : List WsEvent) :
    (item.ev = some "T" → classifyEvent item = .trade item.sym item.p item.s) ∧
    (item.ev = some "Q" → classifyEvent item = .quote item.sym item.bp item.ap) ∧
    (item.ev ≠ some "T" → item.ev ≠ some "Q" →
      classifyEvent item = .ignored) ∧
    on_message (.arr items) = items.map classifyEvent ∧
    on_message .nonList = [] := by
  refine ⟨?_, ?_, ?_, rfl, rfl⟩
  · intro h; simp [classifyEvent, h, handle_trade]
  · intro h; simp [classifyEvent, h, handle_quote]
  · intro h1 h2; simp [classifyEvent, h1, h2]

/-- Claim C7, witness: the spec scenario — the tagged trade record routes to
the trade handler with price `150.2` and size `100`; an `ev = "X"` record is
ignored. -/
theorem C7_dispatch_witness :
    classifyEvent ⟨some "T", some "AAPL", some (150.2 : ℚ), some 100,
        none, none⟩ =
      .trade (some "AAPL") (some (150.2 : ℚ)) (some 100) ∧
    classifyEvent ⟨some "X", none, none, none, none, none⟩ = .ignored :=
  ⟨(C7_dispatch ⟨some "T", some "AAPL", some (150.2 : ℚ), some 100,
      none, none⟩ []).1 rfl,
   (C7_dispatch ⟨some "X", none, none, none, none, none⟩ []).2.2.1
     (by decide) (by decide)⟩

/-- Claim C8: the documented pricing policy yields the mid-quote
`(bid + ask) / 2` whenever both `bid > 0` and `ask > 0` (the values read with
default `0` from `last_quote`), and otherwise falls back to the last trade's
price, `0` when absent. -/
theorem C8_pricing_policy (s : Snapshot) :
    (bidOf s > 0 → askOf s > 0 → optionPrice s = (bidOf s + askOf s) / 2) ∧
    (¬(bidOf s > 0 ∧ askOf s > 0) → optionPrice s = lastTradePriceOf s) := by
  constructor
  · intro hb ha
    simp only [optionPrice]
    rw [if_pos ⟨hb, ha⟩]
  · intro h
    simp only [optionPrice]
    rw [if_neg h]

/-- Claim C8, witness: with `bid = 1` and `ask = 2` the price is the
mid-quote; with no quote at all the price is the last trade's `5`. -/
theorem C8_pricing_policy_witness :
    optionPrice ⟨some ⟨some 1, some 2⟩, some ⟨some 5⟩⟩ = ((1 : ℚ) + 2) / 2 ∧
    optionPrice ⟨none, some ⟨some 5⟩⟩ = (5 : ℚ) := by
  constructor
  · have h := (C8_pricing_policy ⟨some ⟨some 1, some 2⟩, some ⟨some 5⟩⟩).1
      (by norm_num [bidOf]) (by norm_num [askOf])
    simpa [bidOf, askOf] using h
  · have h := (C8_pricing_policy ⟨none, some ⟨some 5⟩⟩).2
      (by simp [bidOf, askOf])
    simpa [lastTradePriceOf] using h

/-- Claim C9: with a valid option type and a resolvable API key, a successful
contract listing that returns the empty list makes `get_option_ticker` fail
with `RuntimeError` (the internal `ValueError` is caught by the blanket
`except` inside the `try` and re-wrapped with the
`Error fetching option contract:` prefix); and a `ValueError` reaches the
caller only when the option type is invalid or the key is missing (argument
absent and environment value absent or empty) — both checked before the
`try`. -/
theorem C9_error_wrapping (underlying expiration strike optionType : String)
    (apiKeyArg envKey : Option String) (api : ListContractsOutcome) :
    ((pyLower optionType = "call" ∨ pyLower optionType = "put") →
      resolvedKeyOk apiKeyArg envKey = true →
      get_option_ticker underlying expiration strike optionType apiKeyArg
          envKey (.returns []) =
        .error (.runtimeError ("Error fetching option contract: " ++
          noContractMsg optionType underlying expiration strike))) ∧
    (∀ m, get_option_ticker underlying expiration strike optionType apiKeyArg
        envKey api = .error (.valueError m) →
      ¬(pyLower optionType = "call" ∨ pyLower optionType = "put") ∨
        (apiKeyArg = none ∧ (envKey = none ∨ envKey = some ""))) := by
  constructor
  · intro hv hk
    unfold get_option_ticker
    rw [if_neg (fun hc => hc hv)]
    simp [hk]
  · intro m hm
    by_cases hv : pyLower optionType = "call" ∨ pyLower optionType = "put"
    · right
      cases hko : resolvedKeyOk apiKeyArg envKey with
      | true =>
        exfalso
        unfold get_option_ticker at hm
        rw [if_neg (fun hc => hc hv)] at hm
        simp only [hko] at hm
        cases api with
        | raises s => simp at hm
        | returns cs =>
          cases cs with
          | nil => simp at hm
          | cons c cs2 => simp at hm
      | false => exact (resolvedKeyOk_false apiKeyArg envKey).mp hko
    · left; exact hv

/-- Claim C9, witness: a valid lookup whose listing succeeds with the empty
list raises the wrapped `RuntimeError`, not a `ValueError`. -/
theorem C9_error_wrapping_witness :
    get_option_ticker "SPY" "2025-01-15" "500" "call" (some "key") none
        (.returns []) =
      .error (.runtimeError ("Error fetching option contract: " ++
        noContractMsg "call" "SPY" "2025-01-15" "500")) :=
  (C9_error_wrapping "SPY" "2025-01-15" "500" "call" (some "key") none
    (.returns [])).1 (Or.inl (by decide)) (by decide)

/-- Claim C10: `main` of `fetch_financials.py` issues no HTTP request and
returns exit code `1` when `POLYGON_API_KEY` is absent (or empty, which
`if not api_key:` also rejects); with a key present, an `HTTPError` returns
`2`, a `URLError` (transport failure) returns `3`, and a successful response
writes the payload to `msft-financials.json` and returns `0`; the embedding is
total over these branches — none of them raises. -/
theorem C10_exit_codes (envKey : Option String) (http : HttpResult) :
    ((envKey = none ∨ envKey = some "") →
      fetch_financials_main envKey http = ⟨1, 0, none⟩) ∧
    (∀ k, envKey = some k → k ≠ "" →
      (∀ c r b, http = .httpError c r b →
        fetch_financials_main envKey http = ⟨2, 1, none⟩) ∧
      (∀ r, http = .urlError r →
        fetch_financials_main envKey http = ⟨3, 1, none⟩) ∧
      (∀ p, http = .ok p →
        fetch_financials_main envKey http = ⟨0, 1, some (OUTPUT_FILE, p)⟩)) := by
  constructor
  · rintro (rfl | rfl) <;> simp [fetch_financials_main]
  · rintro k rfl hk
    refine ⟨?_, ?_, ?_⟩
    · rintro c r b rfl
      simp [fetch_financials_main, hk]
    · rintro r rfl
      simp [fetch_financials_main, hk]
    · rintro p rfl
      simp [fetch_financials_main, hk]

/-- Claim C10, witness: the four branches at concrete inputs — missing key,
HTTP status error, transport failure, success. -/
theorem C10_exit_codes_witness :
    fetch_financials_main none (.ok "payload") = ⟨1, 0, none⟩ ∧
    fetch_financials_main (some "k") (.httpError 403 "Forbidden" none) =
      ⟨2, 1, none⟩ ∧
    fetch_financials_main (some "k") (.urlError "refused") = ⟨3, 1, none⟩ ∧
    fetch_financials_main (some "k") (.ok "payload") =
      ⟨0, 1, some (OUTPUT_FILE, "payload")⟩ := by
  refine ⟨(C10_exit_codes none (.ok "payload")).1 (Or.inl rfl), ?_, ?_, ?_⟩
  · exact ((C10_exit_codes (some "k") (.httpError 403 "Forbidden" none)).2
      "k" rfl (by decide)).1 403 "Forbidden" none rfl
  · exact ((C10_exit_codes (some "k") (.urlError "refused")).2
      "k" rfl (by decide)).2.1 "refused" rfl
  · exact ((C10_exit_codes (some "k") (.ok "payload")).2
      "k" rfl (by decide)).2.2 "payload" rfl

end Polygon
